import Mathlib

/-!
Shallow embedding of the news-to-price sentiment pipeline of
`price_fetcher.py` (Stock-Sentiment-Analysis-Capstone), together with proofs
about its market calendar, trend-adjusted sentiment, deduplication,
price-trend sampling, FinBERT chunking, and per-category aggregation.

Conventions:
- Python floats are modelled as rationals (`ℚ`); `None` as `Option`.
- External effects (HTTP page fetch, yfinance bar fetch, the FinBERT model)
  are passed in as explicit function/`Except` parameters; an `Except.error`
  value models the call raising an exception.
- A Python `datetime` is modelled by a `Timestamp` carrying the wall-clock
  fields the code reads (`weekday()` with Monday = 0, `hour`, `minute`,
  `second`) plus a linear `epoch` in seconds used for comparisons and
  window arithmetic.
-/

/-- A Python `datetime` as the code observes it: wall-clock components plus a
linear epoch (seconds) for ordering and `timedelta` arithmetic.
`weekday` follows Python's `datetime.weekday()`: Monday = 0, …, Sunday = 6. -/
structure Timestamp where
  weekday : ℕ
  hour : ℕ
  minute : ℕ
  second : ℕ
  epoch : ℤ
deriving DecidableEq, Repr

/-- Embeds `is_market_open` (price_fetcher.py lines 275–279):
`time.weekday() < 5 and ((time.hour == 9 and time.minute >= 30) or
(time.hour > 9 and time.hour < 16) or (time.hour == 16 and time.minute == 0))`.
Note the code never reads `time.second`. -/
def is_market_open (time : Timestamp) : Bool :=
  decide (time.weekday < 5) &&
    ((time.hour == 9 && decide (30 ≤ time.minute)) ||
     (decide (9 < time.hour) && decide (time.hour < 16)) ||
     (time.hour == 16 && time.minute == 0))

/-- Embeds `adjust_sentiment_for_trend` (lines 232–243).  The Python function
takes `(sentiment_score, trend_percentage)` and ignores `sentiment_score`;
`trend_factor = 0.01`, the positive branch uses base `0.1` and
`min(0.01 * trend, 1.0)`, the non-positive branch base `-0.1` and
`max(0.01 * trend, -1.0)`, and the sum is clamped to `[-1, 1]` by
`max(min(x, 1.0), -1.0)`. -/
def adjust_sentiment_for_trend (sentiment_score trend_percentage : ℚ) : ℚ :=
  let trend_factor : ℚ := 1/100
  let base_sentiment : ℚ := if 0 < trend_percentage then 1/10 else -(1/10)
  let adjustment : ℚ :=
    if 0 < trend_percentage then min (trend_factor * trend_percentage) 1
    else max (trend_factor * trend_percentage) (-1)
  let adjusted_sentiment := base_sentiment + adjustment
  max (min adjusted_sentiment 1) (-1)

/-- Embeds one row of the aggregation step of `main` (lines 382–385):
`news_df[columns].mean(axis=1)` over the three analyzer columns of one
category group.  pandas' `mean` uses its default `skipna=True`, so missing
(`None`/NaN) entries are dropped and the mean is taken over the values that
are present; the result is NaN (here `none`) only when no value is present. -/
def aggregate_sentiment (scores : List (Option ℚ)) : Option ℚ :=
  let vals := scores.filterMap id
  if vals.length = 0 then none else some (vals.sum / vals.length)

/-- C1 (counterexample): the claim asserts `is_market_open` is false for a
Wednesday 16:00:01, but the code never inspects seconds: with weekday = 2
(Wednesday), hour = 16, minute = 0, second = 1 it returns `true` because the
disjunct `time.hour == 16 and time.minute == 0` holds. -/
theorem is_market_open_true_at_wed_16_00_01 :
    is_market_open ⟨2, 16, 0, 1, 0⟩ = true := by decide

/-- C1 (amended): `is_market_open` ignores seconds; for any timestamp with a
valid minute field it is true iff the weekday is Monday–Friday and the
(hour, minute) pair lies between 09:30 and 16:00 inclusive — so every second
of the 16:00 minute (including 16:00:01) counts as open. -/
theorem is_market_open_iff (t : Timestamp) (hm : t.minute < 60) :
    is_market_open t = true ↔
      t.weekday < 5 ∧ 570 ≤ 60 * t.hour + t.minute ∧ 60 * t.hour + t.minute ≤ 960 := by
  simp only [is_market_open, Bool.and_eq_true, Bool.or_eq_true, decide_eq_true_eq,
    beq_iff_eq]
  omega

/-- Witness for `is_market_open_iff` at Wednesday 16:00:59 (a concrete open
minute) with the `minute < 60` hypothesis discharged. -/
theorem is_market_open_iff_witness :
    is_market_open ⟨2, 16, 0, 59, 0⟩ = true ↔
      2 < 5 ∧ 570 ≤ 60 * 16 + 0 ∧ 60 * 16 + 0 ≤ 960 :=
  is_market_open_iff ⟨2, 16, 0, 59, 0⟩ (by decide)

/-- C6: `adjust_sentiment_for_trend` follows the claimed formula: for a
positive trend it is `clamp(0.1 + min(0.01·t, 1), −1, 1)`, for a non-positive
trend `clamp(−0.1 + max(0.01·t, −1), −1, 1)`; the result always lies in
`[−1, 1]`; and `adjust(0) = −0.1`, `adjust(50) = 0.6`, `adjust(−200) = −1`. -/
theorem adjust_sentiment_for_trend_spec (s t : ℚ) :
    (0 < t →
      adjust_sentiment_for_trend s t = max (min (1/10 + min (1/100 * t) 1) 1) (-1)) ∧
    (t ≤ 0 →
      adjust_sentiment_for_trend s t = max (min (-(1/10) + max (1/100 * t) (-1)) 1) (-1)) ∧
    -1 ≤ adjust_sentiment_for_trend s t ∧ adjust_sentiment_for_trend s t ≤ 1 ∧
    adjust_sentiment_for_trend s 0 = -(1/10) ∧
    adjust_sentiment_for_trend s 50 = 3/5 ∧
    adjust_sentiment_for_trend s (-200) = -1 := by
  refine ⟨?_, ?_, ?_, ?_, by norm_num [adjust_sentiment_for_trend],
    by norm_num [adjust_sentiment_for_trend], by norm_num [adjust_sentiment_for_trend]⟩
  · intro ht
    simp only [adjust_sentiment_for_trend, if_pos ht]
  · intro ht
    simp only [adjust_sentiment_for_trend, if_neg (not_lt.mpr ht)]
  · simp only [adjust_sentiment_for_trend]
    exact le_max_right _ _
  · simp only [adjust_sentiment_for_trend]
    exact max_le (min_le_right _ _) (by norm_num)

/-- Witness for `adjust_sentiment_for_trend_spec`: both branch hypotheses
discharged at concrete trends 50 and 0. -/
theorem adjust_sentiment_for_trend_spec_witness :
    adjust_sentiment_for_trend 0 50 = max (min (1/10 + min (1/100 * 50) 1) 1) (-1) ∧
    adjust_sentiment_for_trend 0 0 = max (min (-(1/10) + max (1/100 * 0) (-1)) 1) (-1) :=
  ⟨(adjust_sentiment_for_trend_spec 0 50).1 (by norm_num),
   (adjust_sentiment_for_trend_spec 0 0).2.1 le_rfl⟩

/-- C10: the trend-adjusted sentiment is never near-neutral: it exceeds 0.1
whenever the trend is positive, is at most −0.1 whenever the trend is
non-positive, and so its absolute value is always at least 0.1. -/
theorem adjust_sentiment_for_trend_nonneutral (s t : ℚ) :
    (0 < t → 1/10 < adjust_sentiment_for_trend s t) ∧
    (t ≤ 0 → adjust_sentiment_for_trend s t ≤ -(1/10)) ∧
    1/10 ≤ |adjust_sentiment_for_trend s t| := by
  have hpos : 0 < t → 1/10 < adjust_sentiment_for_trend s t := by
    intro ht
    simp only [adjust_sentiment_for_trend, if_pos ht]
    have hm : (0:ℚ) < min (1/100 * t) 1 := lt_min (by positivity) one_pos
    have h1 : (1:ℚ)/10 < min (1/10 + min (1/100 * t) 1) 1 :=
      lt_min (by linarith) (by norm_num)
    exact lt_of_lt_of_le h1 (le_max_left _ _)
  have hneg : t ≤ 0 → adjust_sentiment_for_trend s t ≤ -(1/10) := by
    intro ht
    simp only [adjust_sentiment_for_trend, if_neg (not_lt.mpr ht)]
    have hm : max (1/100 * t) (-1) ≤ (0:ℚ) := max_le (by linarith) (by norm_num)
    exact max_le (le_trans (min_le_left _ _) (by linarith)) (by norm_num)
  refine ⟨hpos, hneg, ?_⟩
  rcases le_or_lt t 0 with ht | ht
  · have h := hneg ht
    calc (1:ℚ)/10 ≤ -(adjust_sentiment_for_trend s t) := by linarith
    _ ≤ |adjust_sentiment_for_trend s t| := neg_le_abs _
  · have h := hpos ht
    calc (1:ℚ)/10 ≤ adjust_sentiment_for_trend s t := le_of_lt h
    _ ≤ |adjust_sentiment_for_trend s t| := le_abs_self _

/-- Witness for `adjust_sentiment_for_trend_nonneutral`: both branch
hypotheses discharged at concrete trends 1 and 0. -/
theorem adjust_sentiment_for_trend_nonneutral_witness :
    1/10 < adjust_sentiment_for_trend 0 1 ∧
    adjust_sentiment_for_trend 0 0 ≤ -(1/10) :=
  ⟨(adjust_sentiment_for_trend_nonneutral 0 1).1 one_pos,
   (adjust_sentiment_for_trend_nonneutral 0 0).2.1 le_rfl⟩

/-- C8: when all three analyzer scores of a category group are present, the
aggregate is their arithmetic mean; in particular title sentiments
[0.2, −0.4, 0.6] yield 0.4/3 = 2/15. -/
theorem aggregate_sentiment_mean (a b c : ℚ) :
    aggregate_sentiment [some a, some b, some c] = some ((a + b + c) / 3) ∧
    aggregate_sentiment [some (1/5), some (-(2/5)), some (3/5)] = some (2/15) := by
  constructor
  · simp only [aggregate_sentiment, List.filterMap, id]
    norm_num
    ring_nf
  · simp only [aggregate_sentiment, List.filterMap, id]
    norm_num

/-- C9: the aggregator skips missing analyzer values: with at least one
non-null score among the three, the aggregate is the mean of exactly the
non-null ones, and the aggregate is null iff all three scores are null. -/
theorem aggregate_sentiment_skips_none (o1 o2 o3 : Option ℚ) :
    (([o1, o2, o3].filterMap id ≠ []) →
      aggregate_sentiment [o1, o2, o3] =
        some (([o1, o2, o3].filterMap id).sum / ([o1, o2, o3].filterMap id).length)) ∧
    (aggregate_sentiment [o1, o2, o3] = none ↔ o1 = none ∧ o2 = none ∧ o3 = none) := by
  constructor
  · intro h
    simp only [aggregate_sentiment]
    rw [if_neg (by simpa [List.length_eq_zero] using h)]
  · cases o1 <;> cases o2 <;> cases o3 <;>
      simp [aggregate_sentiment, List.filterMap, id]

/-- Witness for `aggregate_sentiment_skips_none`: one non-null score among
three, hypothesis discharged concretely — the aggregate is that score. -/
theorem aggregate_sentiment_skips_none_witness :
    aggregate_sentiment [some (1/2), none, none] =
      some (([some (1/2), none, none].filterMap (id : Option ℚ → Option ℚ)).sum /
        ([some (1/2), none, none].filterMap (id : Option ℚ → Option ℚ)).length) :=
  (aggregate_sentiment_skips_none (some (1/2)) none none).1 (by decide)

/-- One minute-resolution price bar of the yfinance history frame: its index
timestamp (epoch seconds) and its `Close` value.  The frame's index is
time-sorted, so a bar list stands for the rows in index order. -/
structure Bar where
  time : ℤ
  close : ℚ
deriving DecidableEq, Repr

/-- The record returned by `get_price_trend` (lines 281–343): the dict keys
`price_10_min_before` … `market_status` plus the three identical
per-analyzer price sentiments. -/
structure PriceTrendResult where
  price_10_min_before : Option ℚ
  price_at_news : Option ℚ
  price_after : Option ℚ
  trend_before : Option ℚ
  trend_after : Option ℚ
  minutes_after : Option ℚ
  market_status : String
  nltk_price_sentiment : Option ℚ
  finvader_price_sentiment : Option ℚ
  finbert_price_sentiment : Option ℚ
deriving DecidableEq, Repr

/-- The all-null `market_status = "Closed"` dict of lines 318–329. -/
def closedTrendResult : PriceTrendResult :=
  ⟨none, none, none, none, none, none, "Closed", none, none, none⟩

/-- The all-null `market_status = "Error"` dict of lines 332–343. -/
def errorTrendResult : PriceTrendResult :=
  ⟨none, none, none, none, none, none, "Error", none, none, none⟩

/-- Embeds `data.index.asof(news_time)` followed by `.loc[..., 'Close']`
(line 293): the close of the last bar whose time is at or before `t`;
`none` when every bar is later than `t`, in which case `asof` yields NaN and
the `.loc` lookup raises (caught by the surrounding `except`). -/
def asofClose (bars : List Bar) (t : ℤ) : Option ℚ :=
  ((bars.filter (fun b => decide (b.time ≤ t))).getLast?).map Bar.close

/-- Embeds `get_price_trend` (lines 281–343).  `news_time` is the (NY-local)
news timestamp, `now` the epoch of `datetime.now(NY_TZ)`, and `fetch` the
outcome of `stock.history(start=news_time−10min, end=min(news_time+10min, now),
interval="1m")`: `Except.error` when the request raises, `Except.ok bars`
otherwise.  The fetch is only consulted inside the market-open branch, as in
the source; an exception (fetch failure, or the as-of lookup raising on a
window with no bar at or before the news time) lands in the `except` arm. -/
def get_price_trend (news_time : Timestamp) (now : ℤ)
    (fetch : Except Unit (List Bar)) : PriceTrendResult :=
  if is_market_open news_time then
    match fetch with
    | Except.error _ => errorTrendResult
    | Except.ok data =>
      match data with
      | [] => closedTrendResult
      | b0 :: rest =>
        match asofClose (b0 :: rest) news_time.epoch with
        | none => errorTrendResult
        | some price_at_news =>
          let price_10_min_before := b0.close
          let price_after := ((b0 :: rest).getLast (List.cons_ne_nil b0 rest)).close
          let trend_before := (price_at_news - price_10_min_before) / price_10_min_before * 100
          let trend_after := (price_after - price_at_news) / price_at_news * 100
          let end_time := min (news_time.epoch + 600) now
          let minutes_after := min 10 (((end_time - news_time.epoch : ℤ) : ℚ) / 60)
          let nltk_adjusted := adjust_sentiment_for_trend 0 trend_after
          let finvader_adjusted := adjust_sentiment_for_trend 0 trend_after
          let finbert_adjusted := adjust_sentiment_for_trend 0 trend_after
          ⟨some price_10_min_before, some price_at_news, some price_after,
           some trend_before, some trend_after, some minutes_after, "Open",
           some nltk_adjusted, some finvader_adjusted, some finbert_adjusted⟩
  else closedTrendResult

/-- C4: whenever the market calendar says closed, or the bar series fetched
for the window is empty, `get_price_trend` returns a result whose six numeric
fields are all null and whose `market_status` is "Closed". -/
theorem get_price_trend_closed (t : Timestamp) (now : ℤ)
    (fetch : Except Unit (List Bar))
    (h : is_market_open t = false ∨ fetch = Except.ok []) :
    (get_price_trend t now fetch).price_10_min_before = none ∧
    (get_price_trend t now fetch).price_at_news = none ∧
    (get_price_trend t now fetch).price_after = none ∧
    (get_price_trend t now fetch).trend_before = none ∧
    (get_price_trend t now fetch).trend_after = none ∧
    (get_price_trend t now fetch).minutes_after = none ∧
    (get_price_trend t now fetch).market_status = "Closed" := by
  have hres : get_price_trend t now fetch = closedTrendResult := by
    rcases h with h | h
    · simp [get_price_trend, h]
    · subst h
      by_cases ho : is_market_open t <;> simp [get_price_trend, ho]
  rw [hres]
  exact ⟨rfl, rfl, rfl, rfl, rfl, rfl, rfl⟩

/-- Witness for `get_price_trend_closed` at Saturday 12:00 (weekday 5), with
the market-closed hypothesis discharged concretely. -/
theorem get_price_trend_closed_witness :
    (get_price_trend ⟨5, 12, 0, 0, 0⟩ 0 (Except.ok [])).price_10_min_before = none ∧
    (get_price_trend ⟨5, 12, 0, 0, 0⟩ 0 (Except.ok [])).price_at_news = none ∧
    (get_price_trend ⟨5, 12, 0, 0, 0⟩ 0 (Except.ok [])).price_after = none ∧
    (get_price_trend ⟨5, 12, 0, 0, 0⟩ 0 (Except.ok [])).trend_before = none ∧
    (get_price_trend ⟨5, 12, 0, 0, 0⟩ 0 (Except.ok [])).trend_after = none ∧
    (get_price_trend ⟨5, 12, 0, 0, 0⟩ 0 (Except.ok [])).minutes_after = none ∧
    (get_price_trend ⟨5, 12, 0, 0, 0⟩ 0 (Except.ok [])).market_status = "Closed" :=
  get_price_trend_closed ⟨5, 12, 0, 0, 0⟩ 0 (Except.ok []) (Or.inl (by decide))

/-- C5: if an exception arises while fetching bars or computing trends during
open market hours — the history request raises, or the as-of price lookup
raises because no bar lies at or before the news time — `get_price_trend`
returns (rather than propagates) a result with all numeric fields null and
`market_status = "Error"`. -/
theorem get_price_trend_error (t : Timestamp) (now : ℤ)
    (fetch : Except Unit (List Bar))
    (hopen : is_market_open t = true)
    (h : fetch = Except.error () ∨
      ∃ b rest, fetch = Except.ok (b :: rest) ∧ asofClose (b :: rest) t.epoch = none) :
    (get_price_trend t now fetch).price_10_min_before = none ∧
    (get_price_trend t now fetch).price_at_news = none ∧
    (get_price_trend t now fetch).price_after = none ∧
    (get_price_trend t now fetch).trend_before = none ∧
    (get_price_trend t now fetch).trend_after = none ∧
    (get_price_trend t now fetch).minutes_after = none ∧
    (get_price_trend t now fetch).market_status = "Error" := by
  have hres : get_price_trend t now fetch = errorTrendResult := by
    rcases h with h | ⟨b, rest, hfetch, hasof⟩
    · subst h
      simp [get_price_trend, hopen]
    · subst hfetch
      simp [get_price_trend, hopen, hasof]
  rw [hres]
  exact ⟨rfl, rfl, rfl, rfl, rfl, rfl, rfl⟩

/-- Witness for `get_price_trend_error` at a Wednesday 10:00 open-market
timestamp whose bar fetch raises; both hypotheses discharged concretely. -/
theorem get_price_trend_error_witness :
    (get_price_trend ⟨2, 10, 0, 0, 0⟩ 0 (Except.error ())).price_10_min_before = none ∧
    (get_price_trend ⟨2, 10, 0, 0, 0⟩ 0 (Except.error ())).price_at_news = none ∧
    (get_price_trend ⟨2, 10, 0, 0, 0⟩ 0 (Except.error ())).price_after = none ∧
    (get_price_trend ⟨2, 10, 0, 0, 0⟩ 0 (Except.error ())).trend_before = none ∧
    (get_price_trend ⟨2, 10, 0, 0, 0⟩ 0 (Except.error ())).trend_after = none ∧
    (get_price_trend ⟨2, 10, 0, 0, 0⟩ 0 (Except.error ())).minutes_after = none ∧
    (get_price_trend ⟨2, 10, 0, 0, 0⟩ 0 (Except.error ())).market_status = "Error" :=
  get_price_trend_error ⟨2, 10, 0, 0, 0⟩ 0 (Except.error ()) (by decide)
    (Or.inl rfl)

/-- The three body-sentiment values returned by `get_body_sentiment`
(lines 205–230), each `None` when the page fetch failed. -/
structure BodySentiments where
  nltk_body_sentiment : Option ℚ
  finvader_body_sentiment : Option ℚ
  finbert_body_sentiment : Option ℚ
deriving DecidableEq, Repr

/-- Embeds `get_body_sentiment` (lines 205–230).  `fetchPage` stands for the
`requests.get` + BeautifulSoup paragraph extraction + `clean_text` step and
yields the combined cleaned text, or `Except.error` when any of that raises;
the three analyzer calls are the abstract scorer parameters.  The `except`
arm returns a dict of three `None`s — it does not re-raise. -/
def get_body_sentiment (fetchPage : String → Except Unit String)
    (nltkScore finvaderScore finbertScore : String → ℚ) (url : String) :
    BodySentiments :=
  match fetchPage url with
  | Except.error _ => ⟨none, none, none⟩
  | Except.ok combined_text =>
    ⟨some (nltkScore combined_text), some (finvaderScore combined_text),
     some (finbertScore combined_text)⟩

/-- One parsed RSS feed entry: its publish time (already converted to the
NY timezone) and its `title` and `link` fields. -/
structure Entry where
  published : Timestamp
  title : String
  link : String
deriving DecidableEq, Repr

/-- The dict appended per surviving entry by the sentiment-analyzing
`fetch_yahoo_rss_news` (lines 245–273): ticker, publish time, title, link,
three title sentiments and the three body sentiments. -/
structure SentNewsItem where
  ticker : String
  publish_time : Timestamp
  title : String
  link : String
  nltk_title_sentiment : ℚ
  finvader_title_sentiment : ℚ
  finbert_title_sentiment : ℚ
  body : BodySentiments
deriving DecidableEq, Repr

/-- Embeds the sentiment-analyzing `fetch_yahoo_rss_news` (lines 245–273):
for each feed entry published at or after local midnight (`today`), computes
the three title sentiments and the body sentiments of the linked page and
appends one item; earlier entries are filtered out.  The feed's parsed
entries and the external calls are explicit parameters. -/
def fetch_yahoo_rss_news (ticker : String) (entries : List Entry) (today : ℤ)
    (nltkScore finvaderScore finbertScore : String → ℚ)
    (fetchPage : String → Except Unit String) : List SentNewsItem :=
  entries.filterMap fun entry =>
    if today ≤ entry.published.epoch then
      some { ticker := ticker
             publish_time := entry.published
             title := entry.title
             link := entry.link
             nltk_title_sentiment := nltkScore entry.title
             finvader_title_sentiment := finvaderScore entry.title
             finbert_title_sentiment := finbertScore entry.title
             body := get_body_sentiment fetchPage nltkScore finvaderScore
               finbertScore entry.link }
    else none

/-- Helper: a `filterMap` whose function is `if p a then some (g a) else none`
keeps exactly the entries satisfying `p`. -/
theorem length_filterMap_ite {α β : Type} (p : α → Prop) [DecidablePred p]
    (g : α → β) (l : List α) :
    (l.filterMap (fun a => if p a then some (g a) else none)).length =
      (l.filter (fun a => decide (p a))).length := by
  induction l with
  | nil => rfl
  | cons a l ih =>
    by_cases h : p a <;> simp [List.filterMap_cons, List.filter_cons, h, ih]

/-- C2 (counterexample): with one entry whose linked-page fetch raises, the
collector still emits one item (with null body sentiments) — the entry is
not skipped as the claim states. -/
theorem fetch_yahoo_rss_news_keeps_failed_page_entry :
    (fetch_yahoo_rss_news "AAA" [⟨⟨2, 10, 0, 0, 1000⟩, "T", "L"⟩] 0
        (fun _ => 0) (fun _ => 0) (fun _ => 0) (fun _ => Except.error ())).length = 1 ∧
    (fetch_yahoo_rss_news "AAA" [⟨⟨2, 10, 0, 0, 1000⟩, "T", "L"⟩] 0
        (fun _ => 0) (fun _ => 0) (fun _ => 0) (fun _ => Except.error ())).map
      SentNewsItem.body = [⟨none, none, none⟩] := by
  constructor <;> rfl

/-- C2 (amended): if the fetch of an entry's linked page raises, the entry is
still emitted, with its three body-sentiment fields null; processing of the
remaining entries continues — the output has exactly one item per entry that
passes the publish-date filter, fetch failures included. -/
theorem fetch_yahoo_rss_news_page_failure (ticker : String) (entries : List Entry)
    (today : ℤ) (ns fs bs : String → ℚ) (fp : String → Except Unit String)
    (e : Entry) (he : e ∈ entries) (hdate : today ≤ e.published.epoch)
    (hfail : fp e.link = Except.error ()) :
    ({ ticker := ticker, publish_time := e.published, title := e.title,
       link := e.link, nltk_title_sentiment := ns e.title,
       finvader_title_sentiment := fs e.title,
       finbert_title_sentiment := bs e.title,
       body := ⟨none, none, none⟩ } : SentNewsItem)
      ∈ fetch_yahoo_rss_news ticker entries today ns fs bs fp ∧
    (fetch_yahoo_rss_news ticker entries today ns fs bs fp).length =
      (entries.filter (fun en => decide (today ≤ en.published.epoch))).length := by
  constructor
  · apply List.mem_filterMap.mpr
    refine ⟨e, he, ?_⟩
    rw [if_pos hdate]
    simp [get_body_sentiment, hfail]
  · exact length_filterMap_ite (fun en => today ≤ en.published.epoch) _ entries

/-- Witness for `fetch_yahoo_rss_news_page_failure` at a concrete single
entry whose page fetch raises; all three hypotheses discharged there. -/
theorem fetch_yahoo_rss_news_page_failure_witness :
    ({ ticker := "AAA", publish_time := ⟨2, 10, 0, 0, 1000⟩, title := "T",
       link := "L", nltk_title_sentiment := 0, finvader_title_sentiment := 0,
       finbert_title_sentiment := 0, body := ⟨none, none, none⟩ } : SentNewsItem)
      ∈ fetch_yahoo_rss_news "AAA" [⟨⟨2, 10, 0, 0, 1000⟩, "T", "L"⟩] 0
        (fun _ => 0) (fun _ => 0) (fun _ => 0) (fun _ => Except.error ()) ∧
    (fetch_yahoo_rss_news "AAA" [⟨⟨2, 10, 0, 0, 1000⟩, "T", "L"⟩] 0
        (fun _ => 0) (fun _ => 0) (fun _ => 0) (fun _ => Except.error ())).length =
      ([(⟨⟨2, 10, 0, 0, 1000⟩, "T", "L"⟩ : Entry)].filter
        (fun en => decide ((0:ℤ) ≤ en.published.epoch))).length :=
  fetch_yahoo_rss_news_page_failure "AAA" [⟨⟨2, 10, 0, 0, 1000⟩, "T", "L"⟩] 0
    (fun _ => 0) (fun _ => 0) (fun _ => 0) (fun _ => Except.error ())
    ⟨⟨2, 10, 0, 0, 1000⟩, "T", "L"⟩ (List.mem_singleton.mpr rfl) (by decide) rfl

/-- The three-way label of one FinBERT classification result. -/
inductive FinLabel
  | positive
  | negative
  | neutral
deriving DecidableEq, Repr

/-- One FinBERT pipeline output `result`: its `label` and its `score`. -/
structure FinResult where
  label : FinLabel
  score : ℚ
deriving DecidableEq, Repr

/-- The per-chunk label-to-scalar mapping of lines 171–176: positive ↦
`score`, negative ↦ `-score`, neutral ↦ `0.0`. -/
def labelToScore (result : FinResult) : ℚ :=
  match result.label with
  | FinLabel.positive => result.score
  | FinLabel.negative => -result.score
  | FinLabel.neutral => 0

/-- Fuel-driven core of `chunk_text`'s loop
`for i in range(0, len(words), words_per_chunk)`: emit `words[i:i+wpc]`
slices.  With fuel ≥ the word count the fuel never runs out (each step drops
at least one word when `wpc ≥ 1`). -/
def chunkWords (wpc : ℕ) : ℕ → List String → List (List String)
  | _, [] => []
  | 0, _ :: _ => []
  | fuel + 1, w :: ws => (w :: ws).take wpc :: chunkWords wpc fuel ((w :: ws).drop wpc)

/-- Embeds `chunk_text` (lines 143–154) on the already-split word list:
`words_per_chunk = max_length // 2` and the loop slices the word list into
consecutive `words_per_chunk`-sized chunks. -/
def chunk_text (words : List String) (max_length : ℕ) : List (List String) :=
  let words_per_chunk := max_length / 2
  chunkWords words_per_chunk words.length words

/-- Embeds `get_finbert_sentiment` (lines 156–185).  `model` is the FinBERT
pipeline applied to one chunk: `Except.error` when the call (or the lazy
initialization) raises, which the `except` arm turns into `0.0`.  Otherwise
each chunk's result is mapped through `labelToScore` and the scores are
averaged; with no chunks the fallback `0.0` is returned. -/
def get_finbert_sentiment (model : List String → Except Unit FinResult)
    (words : List String) : ℚ :=
  match (chunk_text words 500).mapM model with
  | Except.error _ => 0
  | Except.ok results =>
    let sentiments := results.map labelToScore
    if sentiments.length ≠ 0 then sentiments.sum / sentiments.length else 0

/-- Helper: every chunk produced by `chunkWords` has at most `wpc` words. -/
theorem chunkWords_length_le (wpc : ℕ) :
    ∀ fuel ws c, c ∈ chunkWords wpc fuel ws → c.length ≤ wpc := by
  intro fuel
  induction fuel with
  | zero =>
    intro ws c hc
    cases ws <;> simp [chunkWords] at hc
  | succ fuel ih =>
    intro ws c hc
    cases ws with
    | nil => simp [chunkWords] at hc
    | cons w ws =>
      simp only [chunkWords, List.mem_cons] at hc
      rcases hc with hc | hc
      · subst hc
        rw [List.length_take]
        exact min_le_left _ _
      · exact ih _ _ hc

/-- Helper: with enough fuel, a non-empty word list that fits in one chunk
yields exactly that single chunk. -/
theorem chunkWords_single (wpc : ℕ) (w : String) (ws : List String)
    (h : (w :: ws).length ≤ wpc) :
    chunkWords wpc (w :: ws).length (w :: ws) = [w :: ws] := by
  rw [List.length_cons, chunkWords, List.take_of_length_le h,
    List.drop_eq_nil_of_le h]
  cases ws.length <;> rfl

/-- C7: the transformer analyzer splits the word list into chunks of at most
250 = 500/2 words; a non-empty text of at most 250 words is scored as the
single chunk it is; each chunk's model result is mapped positive ↦ +score,
negative ↦ −score, neutral ↦ 0, and the returned value is the arithmetic
mean of the chunk scores; and a model failure yields 0 instead of an
exception. -/
theorem get_finbert_sentiment_spec (model : List String → Except Unit FinResult)
    (words : List String) :
    (∀ c ∈ chunk_text words 500, c.length ≤ 250) ∧
    (words ≠ [] → words.length ≤ 250 → chunk_text words 500 = [words]) ∧
    (∀ results, (chunk_text words 500).mapM model = Except.ok results →
      get_finbert_sentiment model words =
        (results.map labelToScore).sum / (results.map labelToScore).length) ∧
    ((chunk_text words 500).mapM model = Except.error () →
      get_finbert_sentiment model words = 0) ∧
    (∀ s : ℚ, labelToScore ⟨FinLabel.positive, s⟩ = s ∧
      labelToScore ⟨FinLabel.negative, s⟩ = -s ∧
      labelToScore ⟨FinLabel.neutral, s⟩ = 0) := by
  refine ⟨?_, ?_, ?_, ?_, fun s => ⟨rfl, rfl, rfl⟩⟩
  · intro c hc
    exact chunkWords_length_le 250 words.length words c hc
  · intro hne hle
    cases words with
    | nil => exact absurd rfl hne
    | cons w ws => exact chunkWords_single 250 w ws hle
  · intro results h
    simp only [get_finbert_sentiment, h]
    by_cases hl : (results.map labelToScore).length = 0
    · rw [if_neg (by simpa using hl), List.length_eq_zero.mp hl]
      simp
    · rw [if_pos hl]
  · intro h
    simp only [get_finbert_sentiment, h]

/-- Witness for `get_finbert_sentiment_spec` with a concrete two-word text
and a model that labels every chunk positive with score 1/2: the text is one
chunk and the sentiment is the (one-element) mean; all hypotheses discharged
concretely. -/
theorem get_finbert_sentiment_spec_witness :
    chunk_text ["good", "news"] 500 = [["good", "news"]] ∧
    get_finbert_sentiment (fun _ => Except.ok ⟨FinLabel.positive, 1/2⟩)
        ["good", "news"] =
      ([(⟨FinLabel.positive, 1/2⟩ : FinResult)].map labelToScore).sum /
        ([(⟨FinLabel.positive, 1/2⟩ : FinResult)].map labelToScore).length :=
  ⟨(get_finbert_sentiment_spec (fun _ => Except.ok ⟨FinLabel.positive, 1/2⟩)
      ["good", "news"]).2.1 (by decide) (by decide),
   (get_finbert_sentiment_spec (fun _ => Except.ok ⟨FinLabel.positive, 1/2⟩)
      ["good", "news"]).2.2.1 [⟨FinLabel.positive, 1/2⟩] rfl⟩

/-- Lexicographic comparison of character lists by code point — how Python
compares the strings that `sorted` orders. -/
def strLeChars : List Char → List Char → Bool
  | [], _ => true
  | _ :: _, [] => false
  | c1 :: r1, c2 :: r2 =>
    if c1 < c2 then true
    else if c2 < c1 then false
    else strLeChars r1 r2

/-- `s1 ≤ s2` in Python's string order (code-point lexicographic). -/
def strLe (s1 s2 : String) : Bool := strLeChars s1.toList s2.toList

/-- One news item of the deduplicating feed reader (lines 32–59): ticker,
publish time (epoch seconds, from the parsed RFC-822 timestamp), title and
link. -/
structure NewsItem where
  ticker : String
  publish_time : ℤ
  title : String
  link : String
deriving DecidableEq, Repr

/-- The grouping key of `remove_duplicates` (line 48): `(title, link)`. -/
def newsKey (item : NewsItem) : String × String := (item.title, item.link)

/-- The bucket `unique_news[key]`: the input items carrying key `k`, in input
order (Python appends to a `defaultdict(list)` while scanning the input). -/
def groupFor (news_items : List NewsItem) (k : String × String) : List NewsItem :=
  news_items.filter (fun item => decide (newsKey item = k))

/-- Embeds `min(news_list, key=lambda x: x['publish_time'])` (line 54):
scan the list keeping the current best, replacing it only on a strictly
earlier publish time — ties keep the earlier-positioned item, as Python's
`min` does. -/
def earliestNews (best : NewsItem) : List NewsItem → NewsItem
  | [] => best
  | x :: xs => earliestNews (if x.publish_time < best.publish_time then x else best) xs

/-- Embeds `sorted(set(item['ticker'] for item in news_list))` (line 56):
the distinct tickers of a group in ascending Python string order. -/
def sortedTickers (group : List NewsItem) : List String :=
  List.insertionSort (fun a b => strLe a b = true) ((group.map NewsItem.ticker).dedup)

/-- The merge of one bucket (lines 53–57): the earliest item of the group
with its ticker overwritten by the comma-joined sorted distinct tickers. -/
def mergeGroup (x : NewsItem) (xs : List NewsItem) : NewsItem :=
  { earliestNews x xs with ticker := String.intercalate "," (sortedTickers (x :: xs)) }

/-- Embeds `remove_duplicates` (lines 45–59): bucket the items by
`(title, link)` — `defaultdict` iterates keys in first-appearance order,
i.e. `dedup` of the mapped keys — and emit each bucket's merged survivor. -/
def remove_duplicates (news_items : List NewsItem) : List NewsItem :=
  ((news_items.map newsKey).dedup).filterMap fun k =>
    match groupFor news_items k with
    | [] => none
    | x :: xs => some (mergeGroup x xs)

/-- Helper: the running-minimum scan returns a member of its input. -/
theorem earliestNews_mem : ∀ (xs : List NewsItem) (best : NewsItem),
    earliestNews best xs ∈ best :: xs := by
  intro xs
  induction xs with
  | nil => intro best; simp [earliestNews]
  | cons x xs ih =>
    intro best
    rw [earliestNews]
    rcases List.mem_cons.mp (ih (if x.publish_time < best.publish_time then x else best))
      with h1 | h1
    · rw [h1]
      split <;> simp
    · exact List.mem_cons_of_mem _ (List.mem_cons_of_mem _ h1)

/-- Helper: the running-minimum scan's publish time is a lower bound for the
whole input. -/
theorem earliestNews_le : ∀ (xs : List NewsItem) (best i : NewsItem),
    i ∈ best :: xs → (earliestNews best xs).publish_time ≤ i.publish_time := by
  intro xs
  induction xs with
  | nil =>
    intro best i hi
    rw [List.mem_singleton] at hi
    subst hi
    exact le_refl _
  | cons x xs ih =>
    intro best i hi
    rw [earliestNews]
    have hle : (if x.publish_time < best.publish_time then x else best).publish_time ≤
          best.publish_time ∧
        (if x.publish_time < best.publish_time then x else best).publish_time ≤
          x.publish_time := by
      split <;> constructor <;> omega
    rcases List.mem_cons.mp hi with h1 | h1
    · subst h1
      exact le_trans (ih _ _ (List.mem_cons_self _ _)) hle.1
    · rcases List.mem_cons.mp h1 with h2 | h2
      · subst h2
        exact le_trans (ih _ _ (List.mem_cons_self _ _)) hle.2
      · exact ih _ i (List.mem_cons_of_mem _ h2)

/-- Helper: membership in a `(title, link)` bucket. -/
theorem mem_groupFor {news_items : List NewsItem} {k : String × String}
    {i : NewsItem} : i ∈ groupFor news_items k ↔ i ∈ news_items ∧ newsKey i = k := by
  simp [groupFor, List.mem_filter]

/-- Helper: merging only rewrites the ticker, so the key is the survivor's. -/
theorem newsKey_mergeGroup (x : NewsItem) (xs : List NewsItem) :
    newsKey (mergeGroup x xs) = newsKey (earliestNews x xs) := rfl

/-- Helper: a `filterMap` that succeeds everywhere and whose outputs project
back to the inputs maps back onto the input list. -/
theorem map_filterMap_eq_self {α β : Type} (g : β → α) (f : α → Option β)
    (l : List α) (h : ∀ a ∈ l, ∃ b, f a = some b ∧ g b = a) :
    (l.filterMap f).map g = l := by
  induction l with
  | nil => rfl
  | cons a l ih =>
    obtain ⟨b, hb, hgb⟩ := h a (List.mem_cons_self a l)
    rw [List.filterMap_cons, hb, List.map_cons, hgb,
      ih (fun a ha => h a (List.mem_cons_of_mem _ ha))]

/-- Helper: every output of `remove_duplicates` is the merge of its own
(non-empty) bucket. -/
theorem remove_duplicates_mem (news_items : List NewsItem) (o : NewsItem)
    (ho : o ∈ remove_duplicates news_items) :
    ∃ x xs, groupFor news_items (newsKey o) = x :: xs ∧ o = mergeGroup x xs := by
  obtain ⟨k, hk, hfk⟩ := List.mem_filterMap.mp ho
  cases hg : groupFor news_items k with
  | nil => simp [hg] at hfk
  | cons x xs =>
    simp only [hg] at hfk
    obtain rfl : mergeGroup x xs = o := by simpa using hfk
    have hko : newsKey (mergeGroup x xs) = k := by
      rw [newsKey_mergeGroup]
      have hmem : earliestNews x xs ∈ groupFor news_items k := by
        rw [hg]; exact earliestNews_mem xs x
      exact (mem_groupFor.mp hmem).2
    exact ⟨x, xs, by rw [hko, hg], rfl⟩

/-- C3: `remove_duplicates` emits exactly one item per distinct
`(title, link)` key — the output keys are precisely the distinct input keys,
in first-appearance order; each output item carries the minimum publish time
of its bucket (it is attained by a bucket member and bounds the whole
bucket) and the sorted, de-duplicated, comma-joined tickers of its bucket;
and in particular two items sharing `(title, link) = ("X", "Y")` with
tickers "AAA", "BBB" and publish times 1 < 2 merge into the single item
with ticker "AAA,BBB" and publish time 1. -/
theorem remove_duplicates_spec (news_items : List NewsItem) :
    (remove_duplicates news_items).map newsKey = (news_items.map newsKey).dedup ∧
    (∀ o ∈ remove_duplicates news_items,
      (∃ i ∈ groupFor news_items (newsKey o), o.publish_time = i.publish_time) ∧
      (∀ i ∈ groupFor news_items (newsKey o), o.publish_time ≤ i.publish_time) ∧
      o.ticker = String.intercalate ","
        (sortedTickers (groupFor news_items (newsKey o)))) ∧
    remove_duplicates [⟨"AAA", 1, "X", "Y"⟩, ⟨"BBB", 2, "X", "Y"⟩] =
      [⟨"AAA,BBB", 1, "X", "Y"⟩] := by
  refine ⟨?_, ?_, by decide⟩
  · unfold remove_duplicates
    apply map_filterMap_eq_self
    intro k hk
    obtain ⟨i, hi, hik⟩ := List.mem_map.mp (List.mem_dedup.mp hk)
    cases hg : groupFor news_items k with
    | nil =>
      exact absurd hg (List.ne_nil_of_mem (mem_groupFor.mpr ⟨hi, hik⟩))
    | cons x xs =>
      refine ⟨mergeGroup x xs, by simp only [hg], ?_⟩
      rw [newsKey_mergeGroup]
      have hmem : earliestNews x xs ∈ groupFor news_items k := by
        rw [hg]; exact earliestNews_mem xs x
      exact (mem_groupFor.mp hmem).2
  · intro o ho
    obtain ⟨x, xs, hg, ho'⟩ := remove_duplicates_mem news_items o ho
    subst ho'
    rw [hg]
    refine ⟨⟨earliestNews x xs, earliestNews_mem xs x, rfl⟩, ?_, rfl⟩
    intro i hi
    exact earliestNews_le xs x i hi

/-- Witness for `remove_duplicates_spec`: the per-item facts instantiated at
the merged survivor of the concrete two-item run, its membership hypothesis
discharged by computation. -/
theorem remove_duplicates_spec_witness :
    (∃ i ∈ groupFor [⟨"AAA", 1, "X", "Y"⟩, ⟨"BBB", 2, "X", "Y"⟩]
        (newsKey ⟨"AAA,BBB", 1, "X", "Y"⟩),
      (⟨"AAA,BBB", 1, "X", "Y"⟩ : NewsItem).publish_time = i.publish_time) ∧
    (∀ i ∈ groupFor [⟨"AAA", 1, "X", "Y"⟩, ⟨"BBB", 2, "X", "Y"⟩]
        (newsKey ⟨"AAA,BBB", 1, "X", "Y"⟩),
      (⟨"AAA,BBB", 1, "X", "Y"⟩ : NewsItem).publish_time ≤ i.publish_time) ∧
    (⟨"AAA,BBB", 1, "X", "Y"⟩ : NewsItem).ticker = String.intercalate ","
      (sortedTickers (groupFor [⟨"AAA", 1, "X", "Y"⟩, ⟨"BBB", 2, "X", "Y"⟩]
        (newsKey ⟨"AAA,BBB", 1, "X", "Y"⟩))) :=
  (remove_duplicates_spec [⟨"AAA", 1, "X", "Y"⟩, ⟨"BBB", 2, "X", "Y"⟩]).2.1
    ⟨"AAA,BBB", 1, "X", "Y"⟩ (by decide)
